import Mathlib

/-!
Verification development for the two multi-account deployment-scanner
driver scripts (`run-multi-account-scan.py`, per-profile output files, and
`run-multi-account-scan-single-csv.py`, combined-CSV output).  The scripts
are embedded shallowly: Python strings become `List Char`, the regex-based
profile extraction becomes an explicit backtracking scanner, the subprocess
and filesystem are an explicit oracle (`WorldS` / `WorldM`), and each
script's `main` becomes a pure function from arguments, configuration-file
state, oracle and parent environment to a record of its observable
behaviour.
-/

/-- Python strings are modelled as lists of characters. -/
abbrev PStr := List Char

/-- The whitespace class used by Python `str.strip()` and by `\s` in the
profile regex, restricted to the ASCII range. -/
def isPySpace (c : Char) : Bool :=
  c = ' ' || c = '\t' || c = '\n' || c = '\r' || c = '\x0b' || c = '\x0c'

/-- Python `str.strip()`: remove leading and trailing whitespace. -/
def pstrip (cs : PStr) : PStr :=
  ((cs.dropWhile isPySpace).reverse.dropWhile isPySpace).reverse

/-- Python `str.split(sep)` for a one-character separator: splitting the
empty string gives `[""]`, and separators at the ends give empty fields. -/
def psplit (sep : Char) : PStr → List PStr
  | [] => [[]]
  | c :: rest =>
    if c = sep then [] :: psplit sep rest
    else
      match psplit sep rest with
      | t :: ts => (c :: t) :: ts
      | [] => [[c]]

/-- Python's substring test `needle in hay`. -/
def hasSubstr (needle : PStr) : PStr → Bool
  | [] => needle.isPrefixOf []
  | c :: rest => needle.isPrefixOf (c :: rest) || hasSubstr needle rest

/-! ## Profile discovery (`get_aws_profiles`)

The scripts extract profile names with
`re.findall(r'^\[(?:profile\s+)?([^\]]+)\]', content, re.MULTILINE)`.
The scanner below reproduces `findall`'s left-to-right non-overlapping
scan: `^` holds at offset 0 and right after a newline; at an anchored `[`
the matcher first tries the branch with the literal `profile` followed by
at least one whitespace character (the greedy `\s+` backtracks one
character when the capture would otherwise be empty), and otherwise
captures everything up to the first `]`, which must be non-empty. -/

/-- Match `([^\]]+)\]`: the (necessarily maximal) run of non-`]`
characters, which must be non-empty, followed by the closing bracket.
Returns the capture and the rest of the input. -/
def nameUpToBracket (cs : PStr) : Option (PStr × PStr) :=
  let pre := cs.takeWhile (fun c => c ≠ ']')
  match cs.dropWhile (fun c => c ≠ ']') with
  | ']' :: rest => if pre = [] then none else some (pre, rest)
  | _ => none

/-- The characters of the literal `profile` in the regex. -/
def profileLit : PStr := ['p', 'r', 'o', 'f', 'i', 'l', 'e']

/-- The branch of the regex in which the optional group `(?:profile\s+)?`
participates: literal `profile`, then greedy `\s+`, then the capture.
When the greedy whitespace run leaves an empty capture directly before
`]`, `\s+` backtracks by one character, which then becomes the capture. -/
def tryProfileBranch (cs : PStr) : Option (PStr × PStr) :=
  if profileLit.isPrefixOf cs then
    let afterLit := cs.drop 7
    let ws := afterLit.takeWhile isPySpace
    let body := afterLit.dropWhile isPySpace
    if ws = [] then none
    else
      match nameUpToBracket body with
      | some r => some r
      | none =>
        match body, ws.getLast? with
        | ']' :: rest, some w => if 2 ≤ ws.length then some ([w], rest) else none
        | _, _ => none
  else none

/-- Attempt a match of `\[(?:profile\s+)?([^\]]+)\]` just after the `[`:
the branch consuming `profile\s+` is preferred, as in the regex engine. -/
def tryCapture (cs : PStr) : Option (PStr × PStr) :=
  match tryProfileBranch cs with
  | some r => some r
  | none => nameUpToBracket cs

/-- `re.findall` over the content: scan left to right; at a position where
`^` holds (offset 0 or preceded by a newline) and the character is `[`,
take the match and resume after it (the character before the resume point
is `]`, so `^` does not hold there); otherwise advance one character.
The fuel argument is instantiated with the length of the input. -/
def scanProfiles : Nat → Bool → PStr → List PStr
  | 0, _, _ => []
  | _ + 1, _, [] => []
  | fuel + 1, atStart, c :: rest =>
    if atStart ∧ c = '[' then
      match tryCapture rest with
      | some (cap, rem) => cap :: scanProfiles fuel false rem
      | none => scanProfiles fuel (c = '\n') rest
    else scanProfiles fuel (c = '\n') rest

/-- The name of the default profile. -/
def defaultLit : PStr := ['d', 'e', 'f', 'a', 'u', 'l', 't']

/-- The literal `[default]` that the scripts look for as a substring. -/
def bracketDefaultLit : PStr := '[' :: defaultLit ++ [']']

/-- The loop body over the regex captures: append the stripped capture
when it is truthy (non-empty) and not `default`. -/
def keepName (m : PStr) : Option PStr :=
  if pstrip m ≠ [] ∧ pstrip m ≠ defaultLit then some (pstrip m) else none

/-- `get_aws_profiles` applied to the configuration-file content: every
regex capture is stripped; captures that strip to the empty string or to
`default` are skipped; finally `default` is appended exactly when the
content contains the substring `[default]`. -/
def get_aws_profiles (content : PStr) : List PStr :=
  let ms := scanProfiles content.length true content
  let named := ms.filterMap keepName
  if hasSubstr bracketDefaultLit content then named ++ [defaultLit] else named

/-! ## Environments and the subprocess oracle

`os.environ.copy()` followed by `env['AWS_PROFILE'] = profile` is modelled
on association lists: the update replaces the value of an existing key and
otherwise appends the pair.  The outcome of `subprocess.run` (and, for the
combined-CSV script, the state of the scanner's CSV artifact) is an
oracle, a function of the profile, since each profile is invoked once. -/

/-- A process environment: an association list of variables. -/
abbrev Env := List (PStr × PStr)

/-- `env[k] = v` on a dict copy: replace the binding of `k` if present,
otherwise append it. -/
def envSet (env : Env) (k v : PStr) : Env :=
  if env.any (fun p => p.1 = k) then
    env.map (fun p => if p.1 = k then (k, v) else p)
  else env ++ [(k, v)]

/-- Environment lookup. -/
def envLookup (env : Env) (k : PStr) : Option PStr :=
  match env.find? (fun p => p.1 = k) with
  | some p => some p.2
  | none => none

/-- The characters of `AWS_PROFILE`. -/
def awsProfileKey : PStr := "AWS_PROFILE".toList

/-- What `subprocess.run` did for one invocation: normal completion with a
return code, standard output and standard error; `subprocess.TimeoutExpired`;
or some other exception while launching. -/
inductive ProcResult
  | completed (returncode : Int) (stdout : PStr) (stderr : PStr)
  | timedOut
  | raisedExc
deriving DecidableEq

/-- A CSV row. -/
abbrev Row := List PStr

/-- Oracle for the combined-CSV script: the subprocess outcome for each
profile, and the parsed rows of `temp_<profile>.csv` if that file exists
after the scanner ran for the profile (`none`: no such file). -/
structure WorldS where
  proc : PStr → ProcResult
  csvFile : PStr → Option (List Row)

/-- Record of one scanner invocation in the combined-CSV script: the
profile, the child environment passed to `subprocess.run`, the
`--log-file-name` argument, and the subprocess outcome. -/
structure CallRec where
  profile : PStr
  env : Env
  logFileName : PStr
  outcome : ProcResult
deriving DecidableEq

/-- `run_deployment_scanner_and_parse_csv`: build the child environment as
a copy of the parent with `AWS_PROFILE` set, run the scanner, and on exit
code 0 read `<temp_log_file>.csv` if it exists, delete it, and return its
rows; in every other case (exit code 0 with no CSV file, non-zero exit,
timeout, launch exception) return the empty row list.  The result is the
invocation record, the returned rows, and whether the CSV file was
deleted. -/
def run_deployment_scanner_and_parse_csv (w : WorldS) (osEnviron : Env)
    (profile : PStr) (temp_log_file : PStr) : CallRec × List Row × Bool :=
  let env := envSet osEnviron awsProfileKey profile
  let call : CallRec := ⟨profile, env, temp_log_file, w.proc profile⟩
  match w.proc profile with
  | .completed rc _ _ =>
    if rc = 0 then
      match w.csvFile profile with
      | some rows => (call, rows, true)
      | none => (call, [], false)
    else (call, [], false)
  | .timedOut => (call, [], false)
  | .raisedExc => (call, [], false)

/-- The rows returned by `run_deployment_scanner_and_parse_csv` for a
profile, as a function of the oracle alone. -/
def scanRows (w : WorldS) (profile : PStr) : List Row :=
  match w.proc profile with
  | .completed rc _ _ =>
    if rc = 0 then
      match w.csvFile profile with
      | some rows => rows
      | none => []
    else []
  | .timedOut => []
  | .raisedExc => []

/-- Whether `run_deployment_scanner_and_parse_csv` deletes the CSV
artifact for a profile: exit code 0 and the file exists. -/
def scanDeletes (w : WorldS) (profile : PStr) : Bool :=
  match w.proc profile with
  | .completed rc _ _ => rc = 0 && (w.csvFile profile).isSome
  | .timedOut => false
  | .raisedExc => false

/-! ## Combined-CSV writing -/

/-- The header search of `write_combined_csv`: the first row of the first
dataset that has at least one row. -/
def findHeaders : List (List Row) → Option Row
  | [] => none
  | data :: rest =>
    match data with
    | r :: _ => some r
    | [] => findHeaders rest

/-- `write_combined_csv`: with no datasets, nothing is written (`none`);
the `if not headers` falsiness check then aborts the write both when no
dataset has a first row (`headers` still `None`) and when the determined
header row is itself the empty list (an empty list is falsy in Python);
otherwise the written file is the header row followed by, for each
dataset with more than one row in order, the rows after its first row. -/
def write_combined_csv (all_data : List (List Row)) : Option (List Row) :=
  if all_data = [] then none
  else
    match findHeaders all_data with
    | none => none
    | some headers =>
      if headers = [] then none
      else
        some (headers ::
          (all_data.map (fun data => if 1 < data.length then data.drop 1 else [])).flatten)

/-- The combined output as the claim describes it: the first row of the
first non-empty list, followed by every list's rows after its first row,
in order. -/
def combinedPerClaim (all_data : List (List Row)) : Option (List Row) :=
  match all_data.find? (fun d => !d.isEmpty) with
  | some (h :: _) => some (h :: (all_data.map (List.drop 1)).flatten)
  | _ => none

/-- The combined output as the claim describes it, amended with the one
guard the counterexample forces: when the header row taken from the first
non-empty list is itself empty, nothing is written. -/
def combinedPerAmendedClaim (all_data : List (List Row)) : Option (List Row) :=
  match all_data.find? (fun d => !d.isEmpty) with
  | some (h :: _) =>
    if h = [] then none else some (h :: (all_data.map (List.drop 1)).flatten)
  | _ => none

/-! ## The combined-CSV driver (`run-multi-account-scan-single-csv.py`) -/

/-- Parsed command-line arguments of the combined-CSV script.  `argparse`
has already succeeded: `--region` and `--output-file` are present, the
optional arguments are `Option`s, `--dry-run` is a flag. -/
structure ArgsS where
  region : PStr
  start_date : Option PStr
  end_date : Option PStr
  output_file : PStr
  profiles : Option PStr
  dry_run : Bool

/-- The distinct fatal error messages a run can print before exiting with
status 1. -/
inductive ErrKind
  | needEndDate
  | needStartDate
  | configNotFound
  | noProfiles
deriving DecidableEq

/-- Profile resolution shared by both scripts: a truthy (non-empty)
`--profiles` argument is split on commas and each token stripped, without
touching the configuration file; otherwise the profiles come from
`get_aws_profiles`, and a missing configuration file is fatal.  The
boolean records whether the configuration file was consulted. -/
def resolveProfiles (profilesArg : Option PStr) (config : Option PStr) :
    Except ErrKind (List PStr × Bool) :=
  match profilesArg with
  | some s =>
    if s ≠ [] then .ok ((psplit ',' s).map pstrip, false)
    else
      match config with
      | none => .error .configNotFound
      | some content => .ok (get_aws_profiles content, true)
  | none =>
    match config with
    | none => .error .configNotFound
    | some content => .ok (get_aws_profiles content, true)

/-- The characters of the `temp_` stem of the per-profile temporary
log-file name in the combined-CSV script. -/
def tempStem : PStr := "temp_".toList

/-- The per-profile loop of the combined-CSV script, in order: each
profile is passed to `run_deployment_scanner_and_parse_csv` with
`temp_<profile>` as the log-file name; a profile with non-empty returned
rows is appended to the successful list and its rows to the collected
data, and otherwise it is appended to the failed list.  The components
are the invocation records, successful profiles, failed profiles,
collected data, and the names of the deleted CSV files. -/
def processProfilesS (w : WorldS) (osEnviron : Env) :
    List PStr → List CallRec × List PStr × List PStr × List (List Row) × List PStr
  | [] => ([], [], [], [], [])
  | p :: rest =>
    let temp := tempStem ++ p
    let r := run_deployment_scanner_and_parse_csv w osEnviron p temp
    let next := processProfilesS w osEnviron rest
    (r.1 :: next.1,
      (if r.2.1 ≠ [] then [p] else []) ++ next.2.1,
      (if r.2.1 = [] then [p] else []) ++ next.2.2.1,
      (if r.2.1 ≠ [] then [r.2.1] else []) ++ next.2.2.2.1,
      (if r.2.2 then [temp ++ ".csv".toList] else []) ++ next.2.2.2.2)

/-- The observable behaviour of one run of the combined-CSV script. -/
structure ResultS where
  exitCode : Nat
  err : Option ErrKind
  configRead : Bool
  profilesToProcess : Option (List PStr)
  dryPlanned : Option (List PStr)
  calls : List CallRec
  successful : List PStr
  failed : List PStr
  all_csv_data : List (List Row)
  deletedFiles : List PStr
  combined : Option (List Row)
  summaryPrinted : Bool
  finalEnv : Env

/-- A fatal exit of the combined-CSV script before profile resolution. -/
def earlyExitS (e : ErrKind) (osEnviron : Env) : ResultS :=
  ⟨1, some e, false, none, none, [], [], [], [], [], none, false, osEnviron⟩

namespace SingleCsv

/-- `main` of `run-multi-account-scan-single-csv.py`: validate the date
pair, resolve the profiles, fail on an empty profile list, in dry-run mode
print the plan and return, and otherwise run the per-profile loop, write
the combined CSV when any data was collected, and print the summary.
`config` is the content of `~/.aws/config` if that file exists;
`osEnviron` is the parent process environment, which nothing mutates. -/
def main (args : ArgsS) (config : Option PStr) (w : WorldS) (osEnviron : Env) : ResultS :=
  if args.start_date.isSome ∧ args.end_date.isNone then earlyExitS .needEndDate osEnviron
  else if args.start_date.isNone ∧ args.end_date.isSome then earlyExitS .needStartDate osEnviron
  else
    match resolveProfiles args.profiles config with
    | .error e => ⟨1, some e, true, none, none, [], [], [], [], [], none, false, osEnviron⟩
    | .ok (profiles_to_process, cread) =>
      if profiles_to_process = [] then
        ⟨1, some .noProfiles, cread, some profiles_to_process, none, [], [], [], [], [],
          none, false, osEnviron⟩
      else if args.dry_run then
        ⟨0, none, cread, some profiles_to_process, some profiles_to_process, [], [], [],
          [], [], none, false, osEnviron⟩
      else
        let r := processProfilesS w osEnviron profiles_to_process
        let all_csv_data := r.2.2.2.1
        let combined := if all_csv_data ≠ [] then write_combined_csv all_csv_data else none
        ⟨0, none, cread, some profiles_to_process, none, r.1, r.2.1, r.2.2.1,
          all_csv_data, r.2.2.2.2, combined, true, osEnviron⟩

end SingleCsv

/-! ## The per-profile driver (`run-multi-account-scan.py`) -/

/-- Parsed command-line arguments of the per-profile script. -/
structure ArgsM where
  region : PStr
  start_date : Option PStr
  end_date : Option PStr
  log_file_name : PStr
  profiles : Option PStr
  dry_run : Bool

/-- Oracle for the per-profile script: the subprocess outcome for each
profile. -/
structure WorldM where
  proc : PStr → ProcResult

/-- Record of one scanner invocation in the per-profile script. -/
structure CallRecM where
  profile : PStr
  env : Env
  logFileName : PStr
  outcome : ProcResult
deriving DecidableEq

/-- `run_deployment_scanner`: build the child environment as a copy of the
parent with `AWS_PROFILE` set and run the scanner with
`<log_file_name>_<profile>` as the log-file name.  All subprocess
outcomes — exit code 0, non-zero exit, `TimeoutExpired`, and any other
exception — are caught inside this function (they only change what is
printed), so it always returns normally and returns nothing. -/
def run_deployment_scanner (w : WorldM) (osEnviron : Env)
    (profile log_file_name : PStr) : CallRecM :=
  let env := envSet osEnviron awsProfileKey profile
  ⟨profile, env, log_file_name ++ '_' :: profile, w.proc profile⟩

/-- The per-profile loop of the per-profile script: `run_deployment_scanner`
never raises, so the `except` branch of the loop body is unreachable and
every profile is appended to the successful list; the failed list stays
empty. -/
def processProfilesM (w : WorldM) (osEnviron : Env) (log_file_name : PStr) :
    List PStr → List CallRecM × List PStr × List PStr
  | [] => ([], [], [])
  | p :: rest =>
    let call := run_deployment_scanner w osEnviron p log_file_name
    let next := processProfilesM w osEnviron log_file_name rest
    (call :: next.1, p :: next.2.1, next.2.2)

/-- The observable behaviour of one run of the per-profile script.  A
dry-run plan line pairs each profile with its resolved output file
`<log_file_name>_<profile>.csv`. -/
structure ResultM where
  exitCode : Nat
  err : Option ErrKind
  configRead : Bool
  profilesToProcess : Option (List PStr)
  dryPlanned : Option (List (PStr × PStr))
  calls : List CallRecM
  successful : List PStr
  failed : List PStr
  summaryPrinted : Bool
  finalEnv : Env

/-- A fatal exit of the per-profile script before profile resolution. -/
def earlyExitM (e : ErrKind) (osEnviron : Env) : ResultM :=
  ⟨1, some e, false, none, none, [], [], [], false, osEnviron⟩

namespace PerProfile

/-- `main` of `run-multi-account-scan.py`: the same argument validation,
profile resolution, empty-list check and dry-run handling as the
combined-CSV script, then the per-profile loop followed by the summary.
There is no CSV collection, combining or deletion in this script. -/
def main (args : ArgsM) (config : Option PStr) (w : WorldM) (osEnviron : Env) : ResultM :=
  if args.start_date.isSome ∧ args.end_date.isNone then earlyExitM .needEndDate osEnviron
  else if args.start_date.isNone ∧ args.end_date.isSome then earlyExitM .needStartDate osEnviron
  else
    match resolveProfiles args.profiles config with
    | .error e => ⟨1, some e, true, none, none, [], [], [], false, osEnviron⟩
    | .ok (profiles_to_process, cread) =>
      if profiles_to_process = [] then
        ⟨1, some .noProfiles, cread, some profiles_to_process, none, [], [], [], false, osEnviron⟩
      else if args.dry_run then
        ⟨0, none, cread, some profiles_to_process,
          some (profiles_to_process.map
            (fun p => (p, args.log_file_name ++ '_' :: (p ++ ".csv".toList)))),
          [], [], [], false, osEnviron⟩
      else
        let r := processProfilesM w osEnviron args.log_file_name profiles_to_process
        ⟨0, none, cread, some profiles_to_process, none, r.1, r.2.1, r.2.2, true, osEnviron⟩

end PerProfile

/-! ## Helper lemmas -/

theorem run_scan_parse_eq (w : WorldS) (osEnviron : Env) (profile temp : PStr) :
    run_deployment_scanner_and_parse_csv w osEnviron profile temp =
      (⟨profile, envSet osEnviron awsProfileKey profile, temp, w.proc profile⟩,
        scanRows w profile, scanDeletes w profile) := by
  unfold run_deployment_scanner_and_parse_csv scanRows scanDeletes
  cases h : w.proc profile with
  | completed rc so se =>
    by_cases hrc : rc = 0
    · cases hcsv : w.csvFile profile <;> simp [hrc, hcsv]
    · simp [hrc]
  | timedOut => simp
  | raisedExc => simp

theorem dropWhile_dropWhile (p : Char → Bool) (l : List Char) :
    (l.dropWhile p).dropWhile p = l.dropWhile p := by
  induction l with
  | nil => rfl
  | cons c t ih => by_cases h : p c <;> simp [List.dropWhile_cons, h, ih]

theorem head_dropWhile_false (p : Char → Bool) (l : List Char) (x : Char)
    (h : (l.dropWhile p).head? = some x) : p x = false := by
  induction l with
  | nil => simp at h
  | cons c t ih =>
    by_cases hc : p c
    · rw [List.dropWhile_cons] at h; simp [hc] at h; exact ih h
    · rw [List.dropWhile_cons] at h; simp [hc] at h; subst h; simpa using hc

theorem dropWhile_eq_append (p : Char → Bool) (l : List Char) :
    ∃ t, l = t ++ l.dropWhile p := by
  induction l with
  | nil => exact ⟨[], rfl⟩
  | cons c t ih =>
    by_cases hc : p c
    · obtain ⟨u, hu⟩ := ih; exact ⟨c :: u, by simp [List.dropWhile_cons, hc, ← hu]⟩
    · exact ⟨[], by simp [List.dropWhile_cons, hc]⟩

theorem dropWhile_of_head_false (p : Char → Bool) (l : List Char)
    (h : ∀ x, l.head? = some x → p x = false) : l.dropWhile p = l := by
  cases l with
  | nil => rfl
  | cons c t => simp [List.dropWhile_cons, h c rfl]

/-- `str.strip()` is idempotent: stripping a stripped string changes
nothing. -/
theorem pstrip_idem (cs : PStr) : pstrip (pstrip cs) = pstrip cs := by
  unfold pstrip
  set m := (cs.dropWhile isPySpace).reverse with hm
  set d := m.dropWhile isPySpace with hd
  have hstep : d.reverse.dropWhile isPySpace = d.reverse := by
    apply dropWhile_of_head_false
    intro x hx
    obtain ⟨t, ht⟩ := dropWhile_eq_append isPySpace m
    have hrev : cs.dropWhile isPySpace = d.reverse ++ t.reverse := by
      have : m.reverse = (t ++ d).reverse := by rw [← ht]
      simpa [hm, List.reverse_append] using this
    have hhead : (cs.dropWhile isPySpace).head? = some x := by
      rw [hrev, List.head?_append, hx]; rfl
    exact head_dropWhile_false isPySpace cs x hhead
  rw [hstep, List.reverse_reverse, hd, dropWhile_dropWhile]

/-- Environment lookup at a cons cell. -/
theorem envLookup_cons (a : PStr × PStr) (t : Env) (k : PStr) :
    envLookup (a :: t) k = if a.1 = k then some a.2 else envLookup t k := by
  by_cases h : a.1 = k
  · simp [envLookup, List.find?_cons_of_pos, h]
  · simp [envLookup, List.find?_cons_of_neg, h]

theorem envLookup_map_set_other (env : Env) (k v k' : PStr) (hk : k' ≠ k) :
    envLookup (env.map (fun p => if p.1 = k then (k, v) else p)) k' = envLookup env k' := by
  induction env with
  | nil => rfl
  | cons a t ih =>
    by_cases ha : a.1 = k
    · rw [List.map_cons, if_pos ha, envLookup_cons, envLookup_cons]
      have h1 : ¬(k = k') := fun h => hk h.symm
      have h2 : ¬(a.1 = k') := fun h => hk (ha ▸ h).symm
      simp [h1, h2, ih]
    · rw [List.map_cons, if_neg ha, envLookup_cons, envLookup_cons]
      by_cases ha' : a.1 = k'
      · simp [ha']
      · simp [ha', ih]

theorem envLookup_map_set_self (env : Env) (k v : PStr)
    (hany : env.any (fun p => p.1 = k) = true) :
    envLookup (env.map (fun p => if p.1 = k then (k, v) else p)) k = some v := by
  induction env with
  | nil => simp at hany
  | cons a t ih =>
    by_cases ha : a.1 = k
    · rw [List.map_cons, if_pos ha, envLookup_cons]; simp
    · rw [List.map_cons, if_neg ha, envLookup_cons]
      have hta : t.any (fun p => p.1 = k) = true := by
        rcases List.any_eq_true.mp hany with ⟨x, hx, hxk⟩
        have hx1 : x.1 = k := by simpa using hxk
        rcases List.mem_cons.mp hx with h | h
        · exact absurd (h ▸ hx1) ha
        · exact List.any_eq_true.mpr ⟨x, h, by simpa using hx1⟩
      simp [ha, ih hta]

theorem envLookup_append_single (env : Env) (k v k' : PStr)
    (hnone : ∀ p ∈ env, p.1 ≠ k) :
    envLookup (env ++ [(k, v)]) k' = if k' = k then some v else envLookup env k' := by
  induction env with
  | nil =>
    rw [List.nil_append, envLookup_cons]
    show (if k = k' then some v else envLookup [] k') = if k' = k then some v else envLookup [] k'
    by_cases hk : k' = k
    · simp [hk]
    · rw [if_neg (fun h => hk h.symm), if_neg hk]
  | cons a t ih =>
    have ha : a.1 ≠ k := hnone a (List.mem_cons_self a t)
    have iht := ih (fun p hp => hnone p (List.mem_cons_of_mem _ hp))
    rw [List.cons_append, envLookup_cons, envLookup_cons]
    by_cases hk : k' = k
    · subst hk
      have ha' : ¬(a.1 = k') := ha
      simp [ha', iht]
    · by_cases ha' : a.1 = k'
      · simp [ha', hk]
      · simp [ha', hk, iht]

/-- The value of an updated environment at every key: the updated key maps
to the new value, every other key is untouched. -/
theorem envLookup_envSet (env : Env) (k v k' : PStr) :
    envLookup (envSet env k v) k' = if k' = k then some v else envLookup env k' := by
  unfold envSet
  by_cases hany : env.any (fun p => p.1 = k) = true
  · rw [if_pos hany]
    by_cases hk : k' = k
    · subst hk; rw [if_pos rfl]; exact envLookup_map_set_self env k' v hany
    · rw [if_neg hk, envLookup_map_set_other env k v k' hk]
  · rw [if_neg hany]
    apply envLookup_append_single
    intro p hp hpk
    exact hany (List.any_eq_true.mpr ⟨p, hp, by simpa using hpk⟩)

/-- The per-profile loop of the combined-CSV script, closed form: the
invocations in order; the successful profiles are those with non-empty
returned rows; the failed ones the rest; the collected data the rows of
the successful profiles in order; the deleted files `temp_<p>.csv` for
the profiles whose artifact was deleted. -/
theorem processProfilesS_eq (w : WorldS) (e : Env) (ps : List PStr) :
    processProfilesS w e ps =
      (ps.map (fun p => ⟨p, envSet e awsProfileKey p, tempStem ++ p, w.proc p⟩),
        ps.filter (fun p => !(scanRows w p).isEmpty),
        ps.filter (fun p => (scanRows w p).isEmpty),
        (ps.filter (fun p => !(scanRows w p).isEmpty)).map (scanRows w),
        (ps.filter (fun p => scanDeletes w p)).map
          (fun p => tempStem ++ p ++ ".csv".toList)) := by
  induction ps with
  | nil => rfl
  | cons p rest ih =>
    simp only [processProfilesS, run_scan_parse_eq, ih]
    by_cases h : scanRows w p = [] <;> by_cases hd : scanDeletes w p <;>
      simp [List.filter_cons, h, hd, List.isEmpty_iff, List.append_assoc]

/-- The per-profile loop of the per-profile script, closed form: every
profile is recorded as successful and none as failed. -/
theorem processProfilesM_eq (w : WorldM) (e : Env) (lfn : PStr) (ps : List PStr) :
    processProfilesM w e lfn ps =
      (ps.map (fun p => ⟨p, envSet e awsProfileKey p, lfn ++ '_' :: p, w.proc p⟩),
        ps, []) := by
  induction ps with
  | nil => rfl
  | cons p rest ih => simp [processProfilesM, run_deployment_scanner, ih]

/-- The header search matches searching for the first non-empty dataset
and taking its first row. -/
theorem findHeaders_eq (l : List (List Row)) :
    findHeaders l = (l.find? (fun d => !d.isEmpty)).bind List.head? := by
  induction l with
  | nil => rfl
  | cons data rest ih =>
    cases data with
    | nil =>
      rw [List.find?_cons_of_neg _ (by simp)]
      exact ih
    | cons r t =>
      rw [List.find?_cons_of_pos _ (by simp)]
      rfl

/-- A dataset's contribution to the combined file is its rows after the
first, with the explicit guard on having more than one row redundant. -/
theorem contribution_eq_drop (d : List Row) :
    (if 1 < d.length then d.drop 1 else []) = d.drop 1 := by
  match d with
  | [] => rfl
  | [x] => rfl
  | x :: y :: t => simp

/-- `write_combined_csv` agrees with the amended claimed description: the
first row of the first non-empty dataset when that row is non-empty,
followed by every dataset's rows after its first row, in dataset order;
nothing otherwise. -/
theorem write_combined_csv_eq_claim (all_data : List (List Row)) :
    write_combined_csv all_data = combinedPerAmendedClaim all_data := by
  unfold write_combined_csv combinedPerAmendedClaim
  rw [findHeaders_eq]
  by_cases h0 : all_data = []
  · subst h0; rfl
  · rw [if_neg h0]
    cases hf : all_data.find? (fun d => !d.isEmpty) with
    | none => rfl
    | some d =>
      cases d with
      | nil => have := List.find?_some hf; simp at this
      | cons h t =>
        have hm : List.map (fun data => if 1 < data.length then List.drop 1 data else [])
            all_data = List.map (List.drop 1) all_data :=
          List.map_congr_left (fun d _ => contribution_eq_drop d)
        show (if h = [] then none else some (h :: (List.map (fun data =>
            if 1 < data.length then List.drop 1 data else []) all_data).flatten))
          = if h = [] then none
            else some (h :: (List.map (List.drop 1) all_data).flatten)
        rw [hm]

/-- A name the capture loop keeps is non-empty, differs from `default`,
and is already stripped. -/
theorem keepName_some (m x : PStr) (h : keepName m = some x) :
    x ≠ [] ∧ x ≠ defaultLit ∧ pstrip x = x := by
  unfold keepName at h
  by_cases hc : pstrip m ≠ [] ∧ pstrip m ≠ defaultLit
  · rw [if_pos hc] at h
    obtain rfl : pstrip m = x := Option.some.inj h
    exact ⟨hc.1, hc.2, pstrip_idem m⟩
  · rw [if_neg hc] at h
    cases h

/-- The named part of profile discovery never contains `default`. -/
theorem count_default_filterMap (ms : List PStr) :
    (ms.filterMap keepName).count defaultLit = 0 := by
  rw [List.count_eq_zero]
  intro hmem
  rcases List.mem_filterMap.mp hmem with ⟨m, _, hm⟩
  exact (keepName_some m _ hm).2.1 rfl

/-- Every profile name returned by discovery is a fixed point of
stripping: names carry no leading or trailing whitespace. -/
theorem get_aws_profiles_stripped (content x : PStr)
    (hx : x ∈ get_aws_profiles content) : pstrip x = x := by
  unfold get_aws_profiles at hx
  by_cases hd : hasSubstr bracketDefaultLit content
  · rw [if_pos hd] at hx
    rcases List.mem_append.mp hx with h | h
    · rcases List.mem_filterMap.mp h with ⟨m, _, hm⟩
      exact (keepName_some m _ hm).2.2
    · rw [List.mem_singleton.mp h]
      decide
  · rw [if_neg hd] at hx
    rcases List.mem_filterMap.mp hx with ⟨m, _, hm⟩
    exact (keepName_some m _ hm).2.2

/-- `default` occurs in the discovered profile list exactly as often as
the content contains the substring `[default]`: once or not at all. -/
theorem get_aws_profiles_count_default (content : PStr) :
    (get_aws_profiles content).count defaultLit
      = if hasSubstr bracketDefaultLit content then 1 else 0 := by
  unfold get_aws_profiles
  by_cases hd : hasSubstr bracketDefaultLit content
  · rw [if_pos hd, if_pos hd, List.count_append, count_default_filterMap]
    decide
  · rw [if_neg hd, if_neg hd]
    exact count_default_filterMap _

/-- When `default` is in the discovered list it is the last element. -/
theorem get_aws_profiles_default_last (content : PStr)
    (h : defaultLit ∈ get_aws_profiles content) :
    (get_aws_profiles content).getLast? = some defaultLit := by
  have hd : hasSubstr bracketDefaultLit content = true := by
    by_contra hnd
    unfold get_aws_profiles at h
    rw [if_neg hnd] at h
    have := count_default_filterMap (scanProfiles content.length true content)
    exact (List.count_eq_zero.mp this) h
  unfold get_aws_profiles
  rw [if_pos hd, List.getLast?_concat]

/-- `default` is discovered exactly when the substring `[default]` occurs
anywhere in the content. -/
theorem get_aws_profiles_default_mem_iff (content : PStr) :
    defaultLit ∈ get_aws_profiles content ↔ hasSubstr bracketDefaultLit content = true := by
  constructor
  · intro h
    by_contra hnd
    unfold get_aws_profiles at h
    rw [if_neg hnd] at h
    exact (List.count_eq_zero.mp (count_default_filterMap _)) h
  · intro h
    unfold get_aws_profiles
    rw [if_pos h]
    exact List.mem_append.mpr (Or.inr (List.mem_singleton.mpr rfl))

/-! ## Claim theorems -/

/-- C1, counterexample: profile discovery does not deduplicate.  A
configuration file declaring section `[a]` twice yields `["a", "a"]`:
the name appears twice and the returned list is not a list of distinct
names, contradicting the claim that such a file yields the name only
once. -/
theorem C1_counterexample :
    get_aws_profiles "[a]\n[a]\n".toList = ["a".toList, "a".toList] ∧
    ¬ (get_aws_profiles "[a]\n[a]\n".toList).Nodup ∧
    ¬ (get_aws_profiles "[a]\n[a]\n".toList).count "a".toList = 1 := by
  decide

/-- C1 as amended: profile discovery returns the regex captures in file
order, each trimmed of whitespace, with duplicates preserved (there is no
deduplication); a profile named `default` never occurs among the named
profiles and is appended exactly once at the end precisely when the
content contains `[default]`; the file `[a]`, `[profile b]`, `[default]`
yields exactly `["a", "b", "default"]`. -/
theorem C1_profile_discovery_amended :
    (∀ content x, x ∈ get_aws_profiles content → pstrip x = x) ∧
    (∀ content, (get_aws_profiles content).count defaultLit
      = if hasSubstr bracketDefaultLit content then 1 else 0) ∧
    (∀ content, defaultLit ∈ get_aws_profiles content →
      (get_aws_profiles content).getLast? = some defaultLit) ∧
    get_aws_profiles "[a]\n[profile b]\n[default]\n".toList
      = ["a".toList, "b".toList, "default".toList] ∧
    get_aws_profiles "[ a ]\n[a]\n[a]\n".toList
      = ["a".toList, "a".toList, "a".toList] :=
  ⟨get_aws_profiles_stripped,
    get_aws_profiles_count_default,
    get_aws_profiles_default_last,
    by decide,
    by decide⟩

/-- C1, witness: the amended theorem applied at concrete inputs. -/
theorem C1_profile_discovery_amended_witness :
    pstrip "a".toList = "a".toList ∧
    (get_aws_profiles "[default]".toList).getLast? = some defaultLit :=
  ⟨C1_profile_discovery_amended.1 "[a]".toList "a".toList (by decide),
    C1_profile_discovery_amended.2.2.1 "[default]".toList (by decide)⟩

/-- C10: `default` is appended exactly when the literal substring
`[default]` occurs anywhere in the content — also mid-line, where no
section header is present — and a section line is matched even with
arbitrary text after the closing bracket. -/
theorem C10_default_substring_and_trailing_text :
    (∀ content, defaultLit ∈ get_aws_profiles content
      ↔ hasSubstr bracketDefaultLit content = true) ∧
    get_aws_profiles "x[default]x".toList = ["default".toList] ∧
    get_aws_profiles "key = [default]".toList = ["default".toList] ∧
    get_aws_profiles "[a] trailing text after the bracket".toList = ["a".toList] :=
  ⟨get_aws_profiles_default_mem_iff, by decide, by decide, by decide⟩

/-- C10, witness: the equivalence applied at a mid-line occurrence. -/
theorem C10_default_substring_and_trailing_text_witness :
    defaultLit ∈ get_aws_profiles "x[default]x".toList :=
  (C10_default_substring_and_trailing_text.1 "x[default]x".toList).mpr (by decide)

/-- C4, counterexample: when the first non-empty dataset's first row is
the empty list (a blank first CSV line), the `if not headers` falsiness
check makes the program write nothing, while the claim predicts a
combined file consisting of that (empty) header row followed by the
remaining data rows — so the claimed description fails at
`[[[], ["r1"]]]`. -/
theorem C4_counterexample :
    write_combined_csv [[([] : Row), ["r1".toList]]] = none ∧
    combinedPerClaim [[([] : Row), ["r1".toList]]]
      = some [([] : Row), ["r1".toList]] ∧
    ¬ write_combined_csv [[([] : Row), ["r1".toList]]]
        = combinedPerClaim [[([] : Row), ["r1".toList]]] := by
  decide

/-- C4 as amended: whenever the header row taken from the first dataset
with at least one row is itself non-empty, the combined file is exactly
that header row followed by, for each dataset with two or more rows in
sequence order, its rows after the first; datasets with at most one row
contribute nothing; when no dataset has a row, or the determined header
row is empty, nothing is written.  `[header, r1, r2]` and `[header, r3]`
combine to exactly `header, r1, r2, r3`. -/
theorem C4_write_combined_csv_amended :
    (∀ all_data : List (List Row),
      write_combined_csv all_data = combinedPerAmendedClaim all_data) ∧
    write_combined_csv
        [[["h".toList], ["r1".toList], ["r2".toList]], [["h".toList], ["r3".toList]]]
      = some [["h".toList], ["r1".toList], ["r2".toList], ["r3".toList]] ∧
    write_combined_csv [[], [["h".toList]], [["h".toList], ["r4".toList]]]
      = some [["h".toList], ["r4".toList]] :=
  ⟨write_combined_csv_eq_claim, by decide, by decide⟩

/-- The only resolution error is a missing configuration file. -/
theorem resolveProfiles_error (a c : Option PStr) (e : ErrKind)
    (h : resolveProfiles a c = .error e) : e = .configNotFound := by
  unfold resolveProfiles at h
  cases a with
  | none =>
    cases c with
    | none => simp at h; exact h.symm
    | some content => simp at h
  | some s =>
    dsimp only at h
    by_cases hs : s ≠ []
    · rw [if_pos hs] at h; simp at h
    · rw [if_neg hs] at h
      cases c with
      | none => simp at h; exact h.symm
      | some content => simp at h

/-- C5: supplying exactly one of the two dates is a fatal error in both
scripts — exit status 1 with the corresponding usage message, before any
subprocess is launched and before the configuration file is consulted —
while supplying both or neither never produces a date-pairing error. -/
theorem C5_date_pair_validation :
    ∀ (argsS : ArgsS) (argsM : ArgsM) (config : Option PStr) (w : WorldS) (wm : WorldM)
      (env : Env),
      (argsS.start_date.isSome ≠ argsS.end_date.isSome →
        (SingleCsv.main argsS config w env).exitCode = 1 ∧
        (SingleCsv.main argsS config w env).calls = [] ∧
        (SingleCsv.main argsS config w env).configRead = false ∧
        ((SingleCsv.main argsS config w env).err = some ErrKind.needEndDate ∨
          (SingleCsv.main argsS config w env).err = some ErrKind.needStartDate)) ∧
      (argsS.start_date.isSome = argsS.end_date.isSome →
        (SingleCsv.main argsS config w env).err ≠ some ErrKind.needEndDate ∧
        (SingleCsv.main argsS config w env).err ≠ some ErrKind.needStartDate) ∧
      (argsM.start_date.isSome ≠ argsM.end_date.isSome →
        (PerProfile.main argsM config wm env).exitCode = 1 ∧
        (PerProfile.main argsM config wm env).calls = [] ∧
        (PerProfile.main argsM config wm env).configRead = false ∧
        ((PerProfile.main argsM config wm env).err = some ErrKind.needEndDate ∨
          (PerProfile.main argsM config wm env).err = some ErrKind.needStartDate)) ∧
      (argsM.start_date.isSome = argsM.end_date.isSome →
        (PerProfile.main argsM config wm env).err ≠ some ErrKind.needEndDate ∧
        (PerProfile.main argsM config wm env).err ≠ some ErrKind.needStartDate) := by
  intro argsS argsM config w wm env
  refine ⟨?_, ?_, ?_, ?_⟩
  · intro h
    cases hs : argsS.start_date <;> cases he : argsS.end_date
    · rw [hs, he] at h; exact absurd rfl h
    · simp [SingleCsv.main, hs, he, earlyExitS]
    · simp [SingleCsv.main, hs, he, earlyExitS]
    · rw [hs, he] at h; exact absurd rfl h
  · intro h
    have h1 : ¬(argsS.start_date.isSome = true ∧ argsS.end_date.isNone = true) := by
      rintro ⟨a, b⟩
      rw [h] at a
      rw [Option.isNone_iff_eq_none] at b
      rw [b] at a
      simp at a
    have h2 : ¬(argsS.start_date.isNone = true ∧ argsS.end_date.isSome = true) := by
      rintro ⟨a, b⟩
      rw [← h] at b
      rw [Option.isNone_iff_eq_none] at a
      rw [a] at b
      simp at b
    simp only [SingleCsv.main, if_neg h1, if_neg h2]
    cases hr : resolveProfiles argsS.profiles config with
    | error e =>
      have he2 := resolveProfiles_error _ _ _ hr
      subst he2
      simp
    | ok pr =>
      obtain ⟨ps0, cr0⟩ := pr
      dsimp only
      split_ifs <;> simp
  · intro h
    cases hs : argsM.start_date <;> cases he : argsM.end_date
    · rw [hs, he] at h; exact absurd rfl h
    · simp [PerProfile.main, hs, he, earlyExitM]
    · simp [PerProfile.main, hs, he, earlyExitM]
    · rw [hs, he] at h; exact absurd rfl h
  · intro h
    have h1 : ¬(argsM.start_date.isSome = true ∧ argsM.end_date.isNone = true) := by
      rintro ⟨a, b⟩
      rw [h] at a
      rw [Option.isNone_iff_eq_none] at b
      rw [b] at a
      simp at a
    have h2 : ¬(argsM.start_date.isNone = true ∧ argsM.end_date.isSome = true) := by
      rintro ⟨a, b⟩
      rw [← h] at b
      rw [Option.isNone_iff_eq_none] at a
      rw [a] at b
      simp at b
    simp only [PerProfile.main, if_neg h1, if_neg h2]
    cases hr : resolveProfiles argsM.profiles config with
    | error e =>
      have he2 := resolveProfiles_error _ _ _ hr
      subst he2
      simp
    | ok pr =>
      obtain ⟨ps0, cr0⟩ := pr
      dsimp only
      split_ifs <;> simp

/-- C5, witness: with `--start-date` supplied and `--end-date` absent, the
combined-CSV script exits 1 without any subprocess call or configuration
read. -/
theorem C5_date_pair_validation_witness :
    (SingleCsv.main ⟨"r".toList, some "20240101".toList, none, "o".toList, none, false⟩
        none ⟨fun _ => ProcResult.raisedExc, fun _ => none⟩ []).exitCode = 1 ∧
    (SingleCsv.main ⟨"r".toList, some "20240101".toList, none, "o".toList, none, false⟩
        none ⟨fun _ => ProcResult.raisedExc, fun _ => none⟩ []).calls = [] ∧
    (SingleCsv.main ⟨"r".toList, some "20240101".toList, none, "o".toList, none, false⟩
        none ⟨fun _ => ProcResult.raisedExc, fun _ => none⟩ []).configRead = false :=
  let h := C5_date_pair_validation
    ⟨"r".toList, some "20240101".toList, none, "o".toList, none, false⟩
    ⟨"r".toList, none, none, "l".toList, none, false⟩
    none ⟨fun _ => ProcResult.raisedExc, fun _ => none⟩ ⟨fun _ => ProcResult.raisedExc⟩ []
  ⟨(h.1 (by decide)).1, (h.1 (by decide)).2.1, (h.1 (by decide)).2.2.1⟩

/-- C6: any run of either script that completes the per-profile loop (and
hence prints the summary) returns normally, with exit status 0, no matter
how many profiles failed; per-profile failures never reach the exit
code. -/
theorem C6_completed_run_exits_zero :
    ∀ (argsS : ArgsS) (argsM : ArgsM) (config : Option PStr) (w : WorldS) (wm : WorldM)
      (env : Env),
      ((SingleCsv.main argsS config w env).summaryPrinted = true →
        (SingleCsv.main argsS config w env).exitCode = 0) ∧
      ((PerProfile.main argsM config wm env).summaryPrinted = true →
        (PerProfile.main argsM config wm env).exitCode = 0) := by
  intro argsS argsM config w wm env
  constructor
  · generalize hr : SingleCsv.main argsS config w env = r
    unfold SingleCsv.main at hr
    split at hr
    · rw [← hr]; intro h; simp [earlyExitS] at h
    · split at hr
      · rw [← hr]; intro h; simp [earlyExitS] at h
      · split at hr
        · rw [← hr]; intro h; simp at h
        · split at hr
          · rw [← hr]; intro h; simp at h
          · split at hr
            · rw [← hr]; intro h; simp at h
            · rw [← hr]; intro h; rfl
  · generalize hr : PerProfile.main argsM config wm env = r
    unfold PerProfile.main at hr
    split at hr
    · rw [← hr]; intro h; simp [earlyExitM] at h
    · split at hr
      · rw [← hr]; intro h; simp [earlyExitM] at h
      · split at hr
        · rw [← hr]; intro h; simp at h
        · split at hr
          · rw [← hr]; intro h; simp at h
          · split at hr
            · rw [← hr]; intro h; simp at h
            · rw [← hr]; intro h; rfl

/-- C6, witness: a complete run in which the only profile fails still
exits 0. -/
theorem C6_completed_run_exits_zero_witness :
    (SingleCsv.main ⟨"r".toList, none, none, "o".toList, some "a".toList, false⟩
        none ⟨fun _ => ProcResult.raisedExc, fun _ => none⟩ []).summaryPrinted = true ∧
    (SingleCsv.main ⟨"r".toList, none, none, "o".toList, some "a".toList, false⟩
        none ⟨fun _ => ProcResult.raisedExc, fun _ => none⟩ []).exitCode = 0 :=
  ⟨by decide,
    (C6_completed_run_exits_zero ⟨"r".toList, none, none, "o".toList, some "a".toList, false⟩
      ⟨"r".toList, none, none, "l".toList, some "a".toList, false⟩ none
      ⟨fun _ => ProcResult.raisedExc, fun _ => none⟩ ⟨fun _ => ProcResult.raisedExc⟩ []).1
      (by decide)⟩

/-- C7: under `--dry-run`, neither script launches a subprocess, deletes
or writes a file, or prints the summary; and when validation and profile
resolution succeed with a non-empty profile list, the printed plan lists
exactly the resolved profiles — paired, in the per-profile script, with
the resolved output file `<log_file_name>_<profile>.csv`. -/
theorem C7_dry_run_performs_nothing :
    ∀ (argsS : ArgsS) (argsM : ArgsM) (config : Option PStr) (w : WorldS) (wm : WorldM)
      (env : Env),
      (argsS.dry_run = true →
        (SingleCsv.main argsS config w env).calls = [] ∧
        (SingleCsv.main argsS config w env).deletedFiles = [] ∧
        (SingleCsv.main argsS config w env).combined = none ∧
        (SingleCsv.main argsS config w env).summaryPrinted = false ∧
        (∀ ps cread, resolveProfiles argsS.profiles config = Except.ok (ps, cread) →
          ps ≠ [] →
          ¬(argsS.start_date.isSome = true ∧ argsS.end_date.isNone = true) →
          ¬(argsS.start_date.isNone = true ∧ argsS.end_date.isSome = true) →
          (SingleCsv.main argsS config w env).dryPlanned = some ps)) ∧
      (argsM.dry_run = true →
        (PerProfile.main argsM config wm env).calls = [] ∧
        (PerProfile.main argsM config wm env).summaryPrinted = false ∧
        (∀ ps cread, resolveProfiles argsM.profiles config = Except.ok (ps, cread) →
          ps ≠ [] →
          ¬(argsM.start_date.isSome = true ∧ argsM.end_date.isNone = true) →
          ¬(argsM.start_date.isNone = true ∧ argsM.end_date.isSome = true) →
          (PerProfile.main argsM config wm env).dryPlanned
            = some (ps.map
              (fun p => (p, argsM.log_file_name ++ '_' :: (p ++ ".csv".toList)))))) := by
  intro argsS argsM config w wm env
  constructor
  · intro hdry
    by_cases h1 : argsS.start_date.isSome = true ∧ argsS.end_date.isNone = true
    · simp only [SingleCsv.main, if_pos h1]
      exact ⟨rfl, rfl, rfl, rfl, fun ps cread hr hps hn1 hn2 => absurd h1 hn1⟩
    · by_cases h2 : argsS.start_date.isNone = true ∧ argsS.end_date.isSome = true
      · simp only [SingleCsv.main, if_neg h1, if_pos h2]
        exact ⟨rfl, rfl, rfl, rfl, fun ps cread hr hps hn1 hn2 => absurd h2 hn2⟩
      · simp only [SingleCsv.main, if_neg h1, if_neg h2]
        cases hr0 : resolveProfiles argsS.profiles config with
        | error e =>
          exact ⟨rfl, rfl, rfl, rfl, fun ps cread hr hps hn1 hn2 => by cases hr⟩
        | ok pr =>
          obtain ⟨ps0, cr0⟩ := pr
          dsimp only
          by_cases hps0 : ps0 = []
          · rw [if_pos hps0]
            refine ⟨rfl, rfl, rfl, rfl, ?_⟩
            intro ps cread hr hps hn1 hn2
            simp only [Except.ok.injEq, Prod.mk.injEq] at hr
            obtain ⟨h3, h4⟩ := hr
            subst h3
            exact absurd hps0 hps
          · rw [if_neg hps0, if_pos hdry]
            refine ⟨rfl, rfl, rfl, rfl, ?_⟩
            intro ps cread hr hps hn1 hn2
            simp only [Except.ok.injEq, Prod.mk.injEq] at hr
            obtain ⟨h3, h4⟩ := hr
            subst h3
            rfl
  · intro hdry
    by_cases h1 : argsM.start_date.isSome = true ∧ argsM.end_date.isNone = true
    · simp only [PerProfile.main, if_pos h1]
      exact ⟨rfl, rfl, fun ps cread hr hps hn1 hn2 => absurd h1 hn1⟩
    · by_cases h2 : argsM.start_date.isNone = true ∧ argsM.end_date.isSome = true
      · simp only [PerProfile.main, if_neg h1, if_pos h2]
        exact ⟨rfl, rfl, fun ps cread hr hps hn1 hn2 => absurd h2 hn2⟩
      · simp only [PerProfile.main, if_neg h1, if_neg h2]
        cases hr0 : resolveProfiles argsM.profiles config with
        | error e =>
          exact ⟨rfl, rfl, fun ps cread hr hps hn1 hn2 => by cases hr⟩
        | ok pr =>
          obtain ⟨ps0, cr0⟩ := pr
          dsimp only
          by_cases hps0 : ps0 = []
          · rw [if_pos hps0]
            refine ⟨rfl, rfl, ?_⟩
            intro ps cread hr hps hn1 hn2
            simp only [Except.ok.injEq, Prod.mk.injEq] at hr
            obtain ⟨h3, h4⟩ := hr
            subst h3
            exact absurd hps0 hps
          · rw [if_neg hps0, if_pos hdry]
            refine ⟨rfl, rfl, ?_⟩
            intro ps cread hr hps hn1 hn2
            simp only [Except.ok.injEq, Prod.mk.injEq] at hr
            obtain ⟨h3, h4⟩ := hr
            subst h3
            rfl

/-- C7, witness: a dry run over three explicit profiles plans all three
targets and launches nothing. -/
theorem C7_dry_run_performs_nothing_witness :
    (PerProfile.main ⟨"r".toList, none, none, "log".toList, some "a,b,c".toList, true⟩
        none ⟨fun _ => ProcResult.raisedExc⟩ []).calls = [] ∧
    (PerProfile.main ⟨"r".toList, none, none, "log".toList, some "a,b,c".toList, true⟩
        none ⟨fun _ => ProcResult.raisedExc⟩ []).dryPlanned
      = some [("a".toList, "log_a.csv".toList), ("b".toList, "log_b.csv".toList),
          ("c".toList, "log_c.csv".toList)] := by
  have h := (C7_dry_run_performs_nothing
    ⟨"r".toList, none, none, "o".toList, some "a,b,c".toList, true⟩
    ⟨"r".toList, none, none, "log".toList, some "a,b,c".toList, true⟩
    none ⟨fun _ => ProcResult.raisedExc, fun _ => none⟩
    ⟨fun _ => ProcResult.raisedExc⟩ []).2 rfl
  refine ⟨h.1, ?_⟩
  have h2 := h.2.2 ["a".toList, "b".toList, "c".toList] false rfl (by decide)
    (by decide) (by decide)
  rw [h2]
  decide

/-- C8: a non-empty `--profiles` argument resolves to exactly its
comma-split, stripped tokens in order, for every configuration-file state,
and the configuration file is never consulted in such a run of either
script. -/
theorem C8_explicit_profiles_precedence :
    ∀ (s : PStr) (argsS : ArgsS) (argsM : ArgsM) (config : Option PStr) (w : WorldS)
      (wm : WorldM) (env : Env),
      s ≠ [] →
      (∀ c, resolveProfiles (some s) c = Except.ok ((psplit ',' s).map pstrip, false)) ∧
      (argsS.profiles = some s →
        (SingleCsv.main argsS config w env).configRead = false ∧
        (¬(argsS.start_date.isSome = true ∧ argsS.end_date.isNone = true) →
          ¬(argsS.start_date.isNone = true ∧ argsS.end_date.isSome = true) →
          (SingleCsv.main argsS config w env).profilesToProcess
            = some ((psplit ',' s).map pstrip))) ∧
      (argsM.profiles = some s →
        (PerProfile.main argsM config wm env).configRead = false ∧
        (¬(argsM.start_date.isSome = true ∧ argsM.end_date.isNone = true) →
          ¬(argsM.start_date.isNone = true ∧ argsM.end_date.isSome = true) →
          (PerProfile.main argsM config wm env).profilesToProcess
            = some ((psplit ',' s).map pstrip))) := by
  intro s argsS argsM config w wm env hs
  have hres : ∀ c, resolveProfiles (some s) c
      = Except.ok ((psplit ',' s).map pstrip, false) := by
    intro c
    unfold resolveProfiles
    dsimp only
    rw [if_pos hs]
  refine ⟨hres, ?_, ?_⟩
  · intro hp
    by_cases h1 : argsS.start_date.isSome = true ∧ argsS.end_date.isNone = true
    · simp only [SingleCsv.main, if_pos h1]
      exact ⟨rfl, fun hn1 _ => absurd h1 hn1⟩
    · by_cases h2 : argsS.start_date.isNone = true ∧ argsS.end_date.isSome = true
      · simp only [SingleCsv.main, if_neg h1, if_pos h2]
        exact ⟨rfl, fun _ hn2 => absurd h2 hn2⟩
      · simp only [SingleCsv.main, if_neg h1, if_neg h2, hp, hres]
        split_ifs <;> exact ⟨rfl, fun _ _ => rfl⟩
  · intro hp
    by_cases h1 : argsM.start_date.isSome = true ∧ argsM.end_date.isNone = true
    · simp only [PerProfile.main, if_pos h1]
      exact ⟨rfl, fun hn1 _ => absurd h1 hn1⟩
    · by_cases h2 : argsM.start_date.isNone = true ∧ argsM.end_date.isSome = true
      · simp only [PerProfile.main, if_neg h1, if_pos h2]
        exact ⟨rfl, fun _ hn2 => absurd h2 hn2⟩
      · simp only [PerProfile.main, if_neg h1, if_neg h2, hp, hres]
        split_ifs <;> exact ⟨rfl, fun _ _ => rfl⟩

/-- C8, witness: `--profiles " a ,b"` resolves to `["a", "b"]` with the
configuration file (which names a different profile) never read. -/
theorem C8_explicit_profiles_precedence_witness :
    (SingleCsv.main ⟨"r".toList, none, none, "o".toList, some " a ,b".toList, false⟩
        (some "[zzz]".toList) ⟨fun _ => ProcResult.raisedExc, fun _ => none⟩ []).configRead
      = false ∧
    (SingleCsv.main ⟨"r".toList, none, none, "o".toList, some " a ,b".toList, false⟩
        (some "[zzz]".toList) ⟨fun _ => ProcResult.raisedExc, fun _ => none⟩
        []).profilesToProcess
      = some ["a".toList, "b".toList] := by
  have h := (C8_explicit_profiles_precedence " a ,b".toList
    ⟨"r".toList, none, none, "o".toList, some " a ,b".toList, false⟩
    ⟨"r".toList, none, none, "l".toList, none, false⟩
    (some "[zzz]".toList) ⟨fun _ => ProcResult.raisedExc, fun _ => none⟩
    ⟨fun _ => ProcResult.raisedExc⟩ [] (by decide)).2.1 rfl
  refine ⟨h.1, ?_⟩
  have h2 := h.2 (by decide) (by decide)
  rw [h2]
  decide

/-- Frame of the combined-CSV script: the parent environment is returned
unchanged, and every recorded invocation carries the child environment
`copy-of-parent with AWS_PROFILE set to the call's profile`. -/
theorem singleCsv_main_env_frame (argsS : ArgsS) (config : Option PStr) (w : WorldS)
    (env : Env) :
    (SingleCsv.main argsS config w env).finalEnv = env ∧
    ∀ c ∈ (SingleCsv.main argsS config w env).calls,
      c.env = envSet env awsProfileKey c.profile := by
  generalize hr : SingleCsv.main argsS config w env = r
  unfold SingleCsv.main at hr
  split at hr
  · rw [← hr]; exact ⟨rfl, fun c hc => by simp [earlyExitS] at hc⟩
  · split at hr
    · rw [← hr]; exact ⟨rfl, fun c hc => by simp [earlyExitS] at hc⟩
    · split at hr
      · rw [← hr]; exact ⟨rfl, fun c hc => by simp at hc⟩
      · split at hr
        · rw [← hr]; exact ⟨rfl, fun c hc => by simp at hc⟩
        · split at hr
          · rw [← hr]; exact ⟨rfl, fun c hc => by simp at hc⟩
          · rw [← hr]
            refine ⟨rfl, fun c hc => ?_⟩
            dsimp only at hc
            rw [processProfilesS_eq] at hc
            dsimp only at hc
            rcases List.mem_map.mp hc with ⟨p, _, rfl⟩
            rfl

/-- Frame of the per-profile script: the parent environment is returned
unchanged, and every recorded invocation carries the child environment
`copy-of-parent with AWS_PROFILE set to the call's profile`. -/
theorem perProfile_main_env_frame (argsM : ArgsM) (config : Option PStr) (wm : WorldM)
    (env : Env) :
    (PerProfile.main argsM config wm env).finalEnv = env ∧
    ∀ c ∈ (PerProfile.main argsM config wm env).calls,
      c.env = envSet env awsProfileKey c.profile := by
  generalize hr : PerProfile.main argsM config wm env = r
  unfold PerProfile.main at hr
  split at hr
  · rw [← hr]; exact ⟨rfl, fun c hc => by simp [earlyExitM] at hc⟩
  · split at hr
    · rw [← hr]; exact ⟨rfl, fun c hc => by simp [earlyExitM] at hc⟩
    · split at hr
      · rw [← hr]; exact ⟨rfl, fun c hc => by simp at hc⟩
      · split at hr
        · rw [← hr]; exact ⟨rfl, fun c hc => by simp at hc⟩
        · split at hr
          · rw [← hr]; exact ⟨rfl, fun c hc => by simp at hc⟩
          · rw [← hr]
            refine ⟨rfl, fun c hc => ?_⟩
            dsimp only at hc
            rw [processProfilesM_eq] at hc
            dsimp only at hc
            rcases List.mem_map.mp hc with ⟨p, _, rfl⟩
            rfl

/-- C9: every scanner invocation of either script passes a child
environment that is the parent environment with exactly `AWS_PROFILE`
rebound to the call's profile — `AWS_PROFILE` maps to the profile, every
other variable is inherited unchanged — and the parent environment itself
is never modified by a run. -/
theorem C9_child_env_profile_selection :
    ∀ (argsS : ArgsS) (argsM : ArgsM) (config : Option PStr) (w : WorldS) (wm : WorldM)
      (env : Env),
      (SingleCsv.main argsS config w env).finalEnv = env ∧
      (∀ c ∈ (SingleCsv.main argsS config w env).calls,
        c.env = envSet env awsProfileKey c.profile ∧
        envLookup c.env awsProfileKey = some c.profile ∧
        (∀ k, k ≠ awsProfileKey → envLookup c.env k = envLookup env k)) ∧
      (PerProfile.main argsM config wm env).finalEnv = env ∧
      (∀ c ∈ (PerProfile.main argsM config wm env).calls,
        c.env = envSet env awsProfileKey c.profile ∧
        envLookup c.env awsProfileKey = some c.profile ∧
        (∀ k, k ≠ awsProfileKey → envLookup c.env k = envLookup env k)) := by
  intro argsS argsM config w wm env
  obtain ⟨hfS, hcS⟩ := singleCsv_main_env_frame argsS config w env
  obtain ⟨hfM, hcM⟩ := perProfile_main_env_frame argsM config wm env
  refine ⟨hfS, fun c hmem => ?_, hfM, fun c hmem => ?_⟩
  · have hce := hcS c hmem
    refine ⟨hce, ?_, ?_⟩
    · rw [hce, envLookup_envSet, if_pos rfl]
    · intro k hk
      rw [hce, envLookup_envSet, if_neg hk]
  · have hce := hcM c hmem
    refine ⟨hce, ?_, ?_⟩
    · rw [hce, envLookup_envSet, if_pos rfl]
    · intro k hk
      rw [hce, envLookup_envSet, if_neg hk]

/-- C9, witness: in a one-profile run over a parent environment binding
`PATH` and a stale `AWS_PROFILE`, the child sees the new profile under
`AWS_PROFILE` and the inherited `PATH`, and the parent environment is
returned unchanged. -/
theorem C9_child_env_profile_selection_witness :
    (SingleCsv.main ⟨"r".toList, none, none, "o".toList, some "a".toList, false⟩
        none ⟨fun _ => ProcResult.raisedExc, fun _ => none⟩
        [("PATH".toList, "x".toList), ("AWS_PROFILE".toList, "old".toList)]).finalEnv
      = [("PATH".toList, "x".toList), ("AWS_PROFILE".toList, "old".toList)] ∧
    envLookup (envSet [("PATH".toList, "x".toList), ("AWS_PROFILE".toList, "old".toList)]
        awsProfileKey "a".toList) awsProfileKey = some "a".toList ∧
    envLookup (envSet [("PATH".toList, "x".toList), ("AWS_PROFILE".toList, "old".toList)]
        awsProfileKey "a".toList) "PATH".toList = some "x".toList := by
  have h := C9_child_env_profile_selection
    ⟨"r".toList, none, none, "o".toList, some "a".toList, false⟩
    ⟨"r".toList, none, none, "l".toList, some "a".toList, false⟩
    none ⟨fun _ => ProcResult.raisedExc, fun _ => none⟩ ⟨fun _ => ProcResult.raisedExc⟩
    [("PATH".toList, "x".toList), ("AWS_PROFILE".toList, "old".toList)]
  have hc := h.2.1
    ⟨"a".toList,
      envSet [("PATH".toList, "x".toList), ("AWS_PROFILE".toList, "old".toList)]
        awsProfileKey "a".toList,
      "temp_a".toList, ProcResult.raisedExc⟩ (by decide)
  exact ⟨h.1, hc.2.1, (hc.2.2 "PATH".toList (by decide)).trans (by decide)⟩

/-- C2: evaluation at the failing input.  In the per-profile script, with
profiles `a,b` where `a`'s subprocess exceeds the timeout
(`TimeoutExpired`) and `b` exits 0, the loop does continue through both
profiles, but `a` is appended to `successful_profiles` — the timeout is
caught inside `run_deployment_scanner`, so the `except` branch of the
loop never fires — and `failed_profiles` stays empty, contradicting the
claim (and the spec's stated policy) that a timed-out profile is counted
as failed.  The combined-CSV script, by contrast, does record the
timed-out `a` as failed while continuing with `b`. -/
theorem C2_timeout_classification_at_failing_input :
    (PerProfile.main ⟨"r".toList, none, none, "log".toList, some "a,b".toList, false⟩
        none ⟨fun p => if p = "a".toList then ProcResult.timedOut
          else ProcResult.completed 0 [] []⟩ []).successful
      = ["a".toList, "b".toList] ∧
    (PerProfile.main ⟨"r".toList, none, none, "log".toList, some "a,b".toList, false⟩
        none ⟨fun p => if p = "a".toList then ProcResult.timedOut
          else ProcResult.completed 0 [] []⟩ []).failed = [] ∧
    (PerProfile.main ⟨"r".toList, none, none, "log".toList, some "a,b".toList, false⟩
        none ⟨fun p => if p = "a".toList then ProcResult.timedOut
          else ProcResult.completed 0 [] []⟩ []).exitCode = 0 ∧
    ((PerProfile.main ⟨"r".toList, none, none, "log".toList, some "a,b".toList, false⟩
        none ⟨fun p => if p = "a".toList then ProcResult.timedOut
          else ProcResult.completed 0 [] []⟩ []).calls.map CallRecM.profile)
      = ["a".toList, "b".toList] ∧
    ((PerProfile.main ⟨"r".toList, none, none, "log".toList, some "a,b".toList, false⟩
        none ⟨fun p => if p = "a".toList then ProcResult.timedOut
          else ProcResult.completed 0 [] []⟩ []).calls.map CallRecM.outcome)
      = [ProcResult.timedOut, ProcResult.completed 0 [] []] ∧
    (SingleCsv.main ⟨"r".toList, none, none, "o".toList, some "a,b".toList, false⟩
        none ⟨fun p => if p = "a".toList then ProcResult.timedOut
            else ProcResult.completed 0 [] [],
          fun _ => some [["h".toList]]⟩ []).failed = ["a".toList] ∧
    (SingleCsv.main ⟨"r".toList, none, none, "o".toList, some "a,b".toList, false⟩
        none ⟨fun p => if p = "a".toList then ProcResult.timedOut
            else ProcResult.completed 0 [] [],
          fun _ => some [["h".toList]]⟩ []).successful = ["b".toList] := by
  decide

/-- When a combined-CSV run completes its loop over profiles `ps`, the
result fields are the closed forms of the loop. -/
theorem singleCsv_main_loop_fields (argsS : ArgsS) (config : Option PStr) (w : WorldS)
    (env : Env) (ps : List PStr)
    (hpp : (SingleCsv.main argsS config w env).profilesToProcess = some ps)
    (hsum : (SingleCsv.main argsS config w env).summaryPrinted = true) :
    (SingleCsv.main argsS config w env).successful
        = ps.filter (fun p => !(scanRows w p).isEmpty) ∧
    (SingleCsv.main argsS config w env).failed
        = ps.filter (fun p => (scanRows w p).isEmpty) ∧
    (SingleCsv.main argsS config w env).all_csv_data
        = (ps.filter (fun p => !(scanRows w p).isEmpty)).map (scanRows w) ∧
    (SingleCsv.main argsS config w env).deletedFiles
        = (ps.filter (fun p => scanDeletes w p)).map
            (fun p => tempStem ++ p ++ ".csv".toList) := by
  revert hpp hsum
  generalize hr : SingleCsv.main argsS config w env = r
  unfold SingleCsv.main at hr
  split at hr
  · rw [← hr]; intro hpp hsum; simp [earlyExitS] at hsum
  · split at hr
    · rw [← hr]; intro hpp hsum; simp [earlyExitS] at hsum
    · split at hr
      · rw [← hr]; intro hpp hsum; simp at hsum
      · split at hr
        · rw [← hr]; intro hpp hsum; simp at hsum
        · split at hr
          · rw [← hr]; intro hpp hsum; simp at hsum
          · rw [← hr]
            intro hpp hsum
            have hps : _ = ps := Option.some.inj hpp
            subst hps
            refine ⟨?_, ?_, ?_, ?_⟩ <;>
              · dsimp only
                rw [processProfilesS_eq]

/-- When a per-profile run completes its loop over profiles `ps`, every
profile is in the successful list and the failed list is empty. -/
theorem perProfile_main_loop_fields (argsM : ArgsM) (config : Option PStr) (wm : WorldM)
    (env : Env) (ps : List PStr)
    (hpp : (PerProfile.main argsM config wm env).profilesToProcess = some ps)
    (hsum : (PerProfile.main argsM config wm env).summaryPrinted = true) :
    (PerProfile.main argsM config wm env).successful = ps ∧
    (PerProfile.main argsM config wm env).failed = [] := by
  revert hpp hsum
  generalize hr : PerProfile.main argsM config wm env = r
  unfold PerProfile.main at hr
  split at hr
  · rw [← hr]; intro hpp hsum; simp [earlyExitM] at hsum
  · split at hr
    · rw [← hr]; intro hpp hsum; simp [earlyExitM] at hsum
    · split at hr
      · rw [← hr]; intro hpp hsum; simp at hsum
      · split at hr
        · rw [← hr]; intro hpp hsum; simp at hsum
        · split at hr
          · rw [← hr]; intro hpp hsum; simp at hsum
          · rw [← hr]
            intro hpp hsum
            have hps : _ = ps := Option.some.inj hpp
            subst hps
            constructor <;>
              · dsimp only
                rw [processProfilesM_eq]

/-- The rows returned for a profile are non-empty exactly when the
subprocess completed with exit code 0 and the CSV artifact exists with at
least one row. -/
theorem scanRows_ne_nil_iff (w : WorldS) (p : PStr) :
    scanRows w p ≠ [] ↔ ∃ so se rows, w.proc p = ProcResult.completed 0 so se ∧
      w.csvFile p = some rows ∧ rows ≠ [] := by
  unfold scanRows
  cases hp : w.proc p with
  | completed rc so se =>
    by_cases hrc : rc = 0
    · subst hrc
      cases hcsv : w.csvFile p with
      | none => simp [hcsv]
      | some rows =>
        simp only [if_pos rfl, hcsv]
        constructor
        · intro h
          exact ⟨so, se, rows, rfl, rfl, h⟩
        · rintro ⟨so', se', rows', h1, h2, h3⟩
          obtain rfl : rows = rows' := Option.some.inj h2
          exact h3
    · dsimp only
      rw [if_neg hrc]
      simp only [ne_eq, not_true_eq_false, false_iff]
      rintro ⟨so', se', rows', h1, h2, h3⟩
      simp at h1
      exact hrc h1.1
  | timedOut => simp
  | raisedExc => simp

/-- C3, counterexample: in the combined-CSV script a profile whose
subprocess exits 0 but leaves no CSV artifact is recorded in
`failed_profiles`, not in `successful_profiles`, contradicting the claim
that exit code 0 alone makes a profile a success. -/
theorem C3_counterexample :
    (SingleCsv.main ⟨"r".toList, none, none, "o".toList, some "a".toList, false⟩
        none ⟨fun _ => ProcResult.completed 0 [] [], fun _ => none⟩ []).successful = [] ∧
    (SingleCsv.main ⟨"r".toList, none, none, "o".toList, some "a".toList, false⟩
        none ⟨fun _ => ProcResult.completed 0 [] [], fun _ => none⟩ []).failed
      = ["a".toList] ∧
    ¬ "a".toList ∈ (SingleCsv.main ⟨"r".toList, none, none, "o".toList, some "a".toList,
        false⟩ none ⟨fun _ => ProcResult.completed 0 [] [], fun _ => none⟩ []).successful := by
  decide

/-- C3 as amended: in the combined-CSV script a profile is classified
successful exactly when its subprocess exits 0 and the expected CSV
artifact exists with at least one row; equivalently, a profile with exit
code 0 whose artifact is missing or empty lands in `failed_profiles`.
When the artifact makes the profile successful its rows are attached to
the collected data, and the artifact is deleted exactly when the
subprocess exits 0 and the artifact exists.  In the per-profile script
every processed profile (in particular one whose subprocess exits 0) is
recorded as successful. -/
theorem C3_success_classification_amended :
    ∀ (argsS : ArgsS) (argsM : ArgsM) (config : Option PStr) (w : WorldS) (wm : WorldM)
      (env : Env) (ps : List PStr) (p : PStr),
      ((SingleCsv.main argsS config w env).profilesToProcess = some ps →
        (SingleCsv.main argsS config w env).summaryPrinted = true →
        p ∈ ps →
        ((p ∈ (SingleCsv.main argsS config w env).successful ↔
            (∃ so se rows, w.proc p = ProcResult.completed 0 so se ∧
              w.csvFile p = some rows ∧ rows ≠ [])) ∧
         (p ∈ (SingleCsv.main argsS config w env).failed ↔ scanRows w p = []) ∧
         (tempStem ++ p ++ ".csv".toList ∈ (SingleCsv.main argsS config w env).deletedFiles
            ↔ scanDeletes w p = true) ∧
         (SingleCsv.main argsS config w env).all_csv_data
            = (ps.filter (fun q => !(scanRows w q).isEmpty)).map (scanRows w))) ∧
      ((PerProfile.main argsM config wm env).profilesToProcess = some ps →
        (PerProfile.main argsM config wm env).summaryPrinted = true →
        p ∈ ps →
        p ∈ (PerProfile.main argsM config wm env).successful) := by
  intro argsS argsM config w wm env ps p
  constructor
  · intro hpp hsum hp
    obtain ⟨hsucc, hfail, hdata, hdel⟩ :=
      singleCsv_main_loop_fields argsS config w env ps hpp hsum
    refine ⟨?_, ?_, ?_, hdata⟩
    · rw [hsucc, ← scanRows_ne_nil_iff]
      rw [List.mem_filter]
      constructor
      · rintro ⟨-, h⟩
        simpa [List.isEmpty_iff] using h
      · intro h
        exact ⟨hp, by simpa [List.isEmpty_iff] using h⟩
    · rw [hfail, List.mem_filter]
      constructor
      · rintro ⟨-, h⟩
        simpa [List.isEmpty_iff] using h
      · intro h
        exact ⟨hp, by simpa [List.isEmpty_iff] using h⟩
    · rw [hdel, List.mem_map]
      constructor
      · rintro ⟨q, hq, hqe⟩
        have hqp : q = p := by
          rw [List.append_assoc, List.append_assoc] at hqe
          exact List.append_cancel_right (List.append_cancel_left hqe)
        subst hqp
        exact (List.mem_filter.mp hq).2
      · intro h
        exact ⟨p, List.mem_filter.mpr ⟨hp, h⟩, rfl⟩
  · intro hpp hsum hp
    obtain ⟨hsucc, -⟩ := perProfile_main_loop_fields argsM config wm env ps hpp hsum
    rw [hsucc]
    exact hp

/-- C3, witness: the amended classification applied to a run whose single
profile exits 0 with a one-data-row artifact — the profile is successful,
its rows are attached, and its artifact deleted. -/
theorem C3_success_classification_amended_witness :
    "a".toList ∈ (SingleCsv.main ⟨"r".toList, none, none, "o".toList, some "a".toList,
        false⟩ none ⟨fun _ => ProcResult.completed 0 [] [],
        fun _ => some [["h".toList], ["d".toList]]⟩ []).successful ∧
    tempStem ++ "a".toList ++ ".csv".toList
      ∈ (SingleCsv.main ⟨"r".toList, none, none, "o".toList, some "a".toList, false⟩
        none ⟨fun _ => ProcResult.completed 0 [] [],
        fun _ => some [["h".toList], ["d".toList]]⟩ []).deletedFiles := by
  have h := (C3_success_classification_amended
    ⟨"r".toList, none, none, "o".toList, some "a".toList, false⟩
    ⟨"r".toList, none, none, "l".toList, some "a".toList, false⟩
    none ⟨fun _ => ProcResult.completed 0 [] [], fun _ => some [["h".toList], ["d".toList]]⟩
    ⟨fun _ => ProcResult.raisedExc⟩ [] ["a".toList] "a".toList).1
    (by decide) (by decide) (by decide)
  exact ⟨h.1.mpr ⟨[], [], [["h".toList], ["d".toList]], rfl, rfl, by decide⟩,
    h.2.2.1.mpr (by decide)⟩
